import Mathlib

/-!
Verification of the model-trainer server services against their
natural-language specification.

Each Python service relevant to the claims is shallowly embedded as an
executable Lean function over explicit state (the Redis state store becomes a
function `String → Option String`, the filesystem becomes explicit records,
HTTP traffic becomes outcome oracles and event traces).  The definitions
follow the Python source of `src/server/model_trainer` line by line; theorems
then settle each claim.
-/

namespace ModelTrainer

/-! ## Common state-store model

`redis.Redis[str].get` returns `Optional[str]`; we model the store as a total
function from keys to `Option String`. -/

/-- Python `str.strip()`: drop whitespace from both ends (structural, so it
evaluates definitionally on literals). -/
def pyStrip (s : String) : String :=
  String.mk (((s.data.dropWhile Char.isWhitespace).reverse.dropWhile
    Char.isWhitespace).reverse)

/-- Key `runs:artifact:{run_id}:file_id` used by `ArtifactCleanupService`. -/
def fileIdKey (run_id : String) : String :=
  "runs:artifact:" ++ run_id ++ ":file_id"

/-- Key `runs:status:{run_id}` (`STATUS_KEY_PREFIX` in the orchestrator). -/
def statusKey (run_id : String) : String :=
  "runs:status:" ++ run_id

/-- Key `runs:eval:{run_id}` (`EVAL_KEY_PREFIX` in the orchestrator). -/
def evalKey (run_id : String) : String :=
  "runs:eval:" ++ run_id

/-- Key `runs:hb:{run_id}` (`HEARTBEAT_KEY_PREFIX` in the orchestrator). -/
def heartbeatKey (run_id : String) : String :=
  "runs:hb:" ++ run_id

/-! ## ArtifactCleanupService (core/services/storage/artifact_cleanup.py) -/

/-- The `settings.app.cleanup` fields read by `cleanup_run_artifacts`. -/
structure CleanupConfig where
  enabled : Bool
  verify_upload : Bool
  dry_run : Bool
  grace_period_seconds : Nat
deriving DecidableEq, Repr

/-- Python dataclass `CleanupResult`. -/
structure CleanupResult where
  run_id : String
  deleted : Bool
  bytes_freed : Nat
  files_deleted : Nat
  reason : Option String
deriving DecidableEq, Repr

/-- The artifact directory as `cleanup_run_artifacts` observes it:
whether `artifact_path.exists()`, and the recursive size / file count
computed by `_calculate_directory_size` / `_count_files`. -/
structure ArtifactDir where
  dirExists : Bool
  sizeBytes : Nat
  fileCount : Nat
deriving DecidableEq, Repr

/-- Result of the cleanup call together with the effect on the filesystem:
`removedDir` records whether `shutil.rmtree` was invoked. -/
structure CleanupOutcome where
  result : CleanupResult
  removedDir : Bool
deriving DecidableEq, Repr

/-- Python `not isinstance(file_id, str) or file_id.strip() == ""` negated:
the stored value exists and is non-blank. -/
def uploadVerified (store : String → Option String) (run_id : String) : Bool :=
  match store (fileIdKey run_id) with
  | none => false
  | some v => !(pyStrip v == "")

/-- Python `status in ("completed", "failed", "canceled")` where `status` is
`Optional[str]` (a `None` status is not a member of the tuple). -/
def isTerminalStatus (status : Option String) : Bool :=
  match status with
  | none => false
  | some s => s == "completed" || s == "failed" || s == "canceled"

/-- Embedding of `ArtifactCleanupService.cleanup_run_artifacts`, gate for gate.  The
`shutil.rmtree` call is modelled as succeeding (IO errors are out of scope of
the claim). -/
def cleanup_run_artifacts (cfg : CleanupConfig) (store : String → Option String)
    (run_id : String) (dir : ArtifactDir) : CleanupOutcome :=
  if !cfg.enabled then
    ⟨⟨run_id, false, 0, 0, some "cleanup_disabled"⟩, false⟩
  else if !dir.dirExists then
    ⟨⟨run_id, false, 0, 0, some "directory_not_found"⟩, false⟩
  else if cfg.verify_upload && !(uploadVerified store run_id) then
    ⟨⟨run_id, false, 0, 0, some "upload_not_verified"⟩, false⟩
  else if !(isTerminalStatus (store (statusKey run_id))) then
    ⟨⟨run_id, false, 0, 0, some "run_not_terminal"⟩, false⟩
  else if cfg.dry_run then
    ⟨⟨run_id, false, 0, 0, some "dry_run"⟩, false⟩
  else
    ⟨⟨run_id, true, dir.sizeBytes, dir.fileCount, none⟩, true⟩

/-- Restatement of the spec sentence for comparison: the reason code of the
first failed gate, in the order enabled / directory / upload verification /
terminal status / dry-run, and `none` when every gate passes. -/
def specFirstFailedGate (cfg : CleanupConfig) (store : String → Option String)
    (run_id : String) (dir : ArtifactDir) : Option String :=
  if !cfg.enabled then some "cleanup_disabled"
  else if !dir.dirExists then some "directory_not_found"
  else if cfg.verify_upload && !(uploadVerified store run_id) then some "upload_not_verified"
  else if !(isTerminalStatus (store (statusKey run_id))) then some "run_not_terminal"
  else if cfg.dry_run then some "dry_run"
  else none

/-- C1: `cleanup_run_artifacts` deletes the directory if and only if the
feature flag is enabled, the directory exists, (when `verify_upload` is on) a
non-blank `file_id` is stored under `runs:artifact:{run_id}:file_id`, the
stored status is terminal, and `dry_run` is off; otherwise it returns
`deleted=false` with the reason code of the first failed gate and the
directory is untouched. -/
theorem artifact_cleanup_gate_semantics (cfg : CleanupConfig)
    (store : String → Option String) (run_id : String) (dir : ArtifactDir) :
    ((cleanup_run_artifacts cfg store run_id dir).result.deleted = true ↔
      (cfg.enabled = true ∧ dir.dirExists = true ∧
        (cfg.verify_upload = true → uploadVerified store run_id = true) ∧
        isTerminalStatus (store (statusKey run_id)) = true ∧
        cfg.dry_run = false)) ∧
    (cleanup_run_artifacts cfg store run_id dir).result.reason =
      specFirstFailedGate cfg store run_id dir ∧
    (cleanup_run_artifacts cfg store run_id dir).removedDir =
      (cleanup_run_artifacts cfg store run_id dir).result.deleted ∧
    (cleanup_run_artifacts cfg store run_id dir).result.run_id = run_id := by
  unfold cleanup_run_artifacts specFirstFailedGate
  cases h1 : cfg.enabled <;>
    cases h2 : dir.dirExists <;>
      cases h3 : cfg.verify_upload <;>
        cases h4 : uploadVerified store run_id <;>
          cases h5 : isTerminalStatus (store (statusKey run_id)) <;>
            cases h6 : cfg.dry_run <;> simp

/-! ## CorpusCacheCleanupService (core/services/data/corpus_cache_cleanup.py) -/

/-- Python `_CacheEntry`: one regular file of the cache directory as
`_scan_cache_dir` records it (timestamps as integral ticks). -/
structure CacheEntry where
  name : String
  size_bytes : Nat
  access_ts : Nat
  modified_ts : Nat
deriving DecidableEq, Repr

/-- Field `cfg.eviction_policy : Literal["lru", "oldest"]`. -/
inductive EvictPolicy where
  | lru
  | oldest
deriving DecidableEq, Repr

/-- The `settings.app.corpus_cache_cleanup` fields read by `clean`. -/
structure CorpusCacheConfig where
  enabled : Bool
  max_bytes : Nat
  min_free_bytes : Nat
  policy : EvictPolicy
deriving DecidableEq, Repr

/-- Python `_cache_key_lru` as a sort relation: ascending `access_ts`. -/
def accessLe (a b : CacheEntry) : Prop :=
  a.access_ts ≤ b.access_ts

instance : DecidableRel accessLe := fun a b =>
  inferInstanceAs (Decidable (a.access_ts ≤ b.access_ts))

instance : IsTotal CacheEntry accessLe :=
  ⟨fun a b => Nat.le_total a.access_ts b.access_ts⟩

instance : IsTrans CacheEntry accessLe :=
  ⟨fun _ _ _ hab hbc => Nat.le_trans hab hbc⟩

/-- Python `_cache_key_oldest` as a sort relation: ascending `modified_ts`. -/
def modifiedLe (a b : CacheEntry) : Prop :=
  a.modified_ts ≤ b.modified_ts

instance : DecidableRel modifiedLe := fun a b =>
  inferInstanceAs (Decidable (a.modified_ts ≤ b.modified_ts))

/-- Python `sorted(entries, key=key_fn)` (a stable sort, as is insertion sort). -/
def sortEntries (p : EvictPolicy) (es : List CacheEntry) : List CacheEntry :=
  match p with
  | .lru => List.insertionSort accessLe es
  | .oldest => List.insertionSort modifiedLe es

/-- Total size of a list of entries (`total_bytes` of `_scan_cache_dir`). -/
def sumSizes (es : List CacheEntry) : Nat :=
  (es.map CacheEntry.size_bytes).sum

/-- The deletion loop of `clean`: before each deletion the thresholds are
re-checked (`break`), then the entry is unlinked and the running
`total_bytes` / `free_bytes` counters are updated by its size.  Returns the
list of deleted entries in deletion order. -/
def evictLoop (maxB minFree : Nat) : List CacheEntry → Nat → Nat → List CacheEntry
  | [], _, _ => []
  | e :: rest, total, free =>
    if total ≤ maxB ∧ minFree ≤ free then []
    else e :: evictLoop maxB minFree rest (total - e.size_bytes) (free + e.size_bytes)

/-- Embedding of `CorpusCacheCleanupService.clean`, returning the deleted entries in
deletion order (`deleted_files` is the length, `bytes_freed` the size sum).
`free0` is `shutil.disk_usage(...).free` at entry. -/
def corpus_cache_clean (cfg : CorpusCacheConfig) (dirExists : Bool) (free0 : Nat)
    (entries : List CacheEntry) : List CacheEntry :=
  if !cfg.enabled then []
  else if !dirExists then []
  else if sumSizes entries ≤ cfg.max_bytes ∧ cfg.min_free_bytes ≤ free0 then []
  else evictLoop cfg.max_bytes cfg.min_free_bytes (sortEntries cfg.policy entries)
    (sumSizes entries) free0

theorem evictLoop_eq_take (m f : Nat) (l : List CacheEntry) (t fr : Nat) :
    evictLoop m f l t fr = l.take (evictLoop m f l t fr).length := by
  induction l generalizing t fr with
  | nil => simp [evictLoop]
  | cons e rest ih =>
    by_cases h : t ≤ m ∧ f ≤ fr
    · simp [evictLoop, h]
    · simp only [evictLoop, if_neg h, List.length_cons, List.take_succ_cons]
      exact congrArg (e :: ·) (ih _ _)

theorem evictLoop_stops_late (m f : Nat) (l : List CacheEntry) (t fr : Nat) :
    ∀ k, k < (evictLoop m f l t fr).length →
      ¬(t - sumSizes ((evictLoop m f l t fr).take k) ≤ m ∧
        f ≤ fr + sumSizes ((evictLoop m f l t fr).take k)) := by
  induction l generalizing t fr with
  | nil => simp [evictLoop]
  | cons e rest ih =>
    by_cases h : t ≤ m ∧ f ≤ fr
    · simp [evictLoop, h]
    · intro k hk
      simp only [evictLoop, if_neg h] at hk ⊢
      match k with
      | 0 => simpa [sumSizes] using h
      | Nat.succ k =>
        have hk2 : k < (evictLoop m f rest (t - e.size_bytes) (fr + e.size_bytes)).length := by
          simpa using hk
        have := ih (t - e.size_bytes) (fr + e.size_bytes) k hk2
        simpa [sumSizes, Nat.sub_sub, Nat.add_assoc] using this

theorem evictLoop_post (m f : Nat) (l : List CacheEntry) (t fr : Nat) :
    (t - sumSizes (evictLoop m f l t fr) ≤ m ∧
      f ≤ fr + sumSizes (evictLoop m f l t fr)) ∨
    evictLoop m f l t fr = l := by
  induction l generalizing t fr with
  | nil => simp [evictLoop]
  | cons e rest ih =>
    by_cases h : t ≤ m ∧ f ≤ fr
    · simp only [evictLoop, if_pos h]
      left
      simpa [sumSizes] using h
    · simp only [evictLoop, if_neg h]
      rcases ih (t - e.size_bytes) (fr + e.size_bytes) with hsat | hall
      · left
        constructor
        · calc t - sumSizes (e :: evictLoop m f rest (t - e.size_bytes) (fr + e.size_bytes))
              = t - e.size_bytes -
                sumSizes (evictLoop m f rest (t - e.size_bytes) (fr + e.size_bytes)) := by
                simp [sumSizes, Nat.sub_sub]
            _ ≤ m := hsat.1
        · calc f ≤ fr + e.size_bytes +
                sumSizes (evictLoop m f rest (t - e.size_bytes) (fr + e.size_bytes)) := hsat.2
            _ = fr + sumSizes (e :: evictLoop m f rest (t - e.size_bytes) (fr + e.size_bytes)) := by
                simp [sumSizes, Nat.add_assoc]
      · right
        exact congrArg (e :: ·) hall

/-- What C2 states about one `clean` invocation under the `lru` policy:
writing `D` for the deleted entries and `sortedE` for the entries in
ascending last-access order, the deletions are an initial segment of
`sortedE` (hence ascending in access time), before each deletion the two
thresholds were not yet both satisfied (counters updated by each deleted
entry's size), and at the end either both thresholds hold or everything was
deleted. -/
def LruEvictionSpec (cfg : CorpusCacheConfig) (free0 : Nat)
    (entries : List CacheEntry) : Prop :=
  (corpus_cache_clean cfg true free0 entries) =
      (sortEntries EvictPolicy.lru entries).take
        (corpus_cache_clean cfg true free0 entries).length ∧
  List.Pairwise accessLe (corpus_cache_clean cfg true free0 entries) ∧
  (∀ k, k < (corpus_cache_clean cfg true free0 entries).length →
    ¬(sumSizes entries - sumSizes ((corpus_cache_clean cfg true free0 entries).take k)
        ≤ cfg.max_bytes ∧
      cfg.min_free_bytes ≤
        free0 + sumSizes ((corpus_cache_clean cfg true free0 entries).take k))) ∧
  ((sumSizes entries - sumSizes (corpus_cache_clean cfg true free0 entries)
        ≤ cfg.max_bytes ∧
      cfg.min_free_bytes ≤
        free0 + sumSizes (corpus_cache_clean cfg true free0 entries)) ∨
    corpus_cache_clean cfg true free0 entries = sortEntries EvictPolicy.lru entries)

/-- C2: with cleanup enabled, the cache directory present, and at least one
threshold violated (total size above `max_bytes` or free space below
`min_free_bytes`), `clean` under the `lru` policy deletes entries one at a
time in ascending last-access order, updating the running counters by each
deleted entry's size, and stops exactly when both thresholds are satisfied
(or after the last entry). -/
theorem corpus_cache_lru_eviction (cfg : CorpusCacheConfig) (free0 : Nat)
    (entries : List CacheEntry) (hen : cfg.enabled = true)
    (hpol : cfg.policy = EvictPolicy.lru)
    (htrig : ¬(sumSizes entries ≤ cfg.max_bytes ∧ cfg.min_free_bytes ≤ free0)) :
    LruEvictionSpec cfg free0 entries := by
  have hclean : corpus_cache_clean cfg true free0 entries =
      evictLoop cfg.max_bytes cfg.min_free_bytes
        (sortEntries EvictPolicy.lru entries) (sumSizes entries) free0 := by
    unfold corpus_cache_clean
    rw [hpol]
    simp [hen, htrig]
  have hsortedE : List.Pairwise accessLe (sortEntries EvictPolicy.lru entries) :=
    List.sorted_insertionSort accessLe entries
  refine ⟨?_, ?_, ?_, ?_⟩
  · rw [hclean]
    exact evictLoop_eq_take _ _ _ _ _
  · rw [hclean]
    have htk := evictLoop_eq_take cfg.max_bytes cfg.min_free_bytes
      (sortEntries EvictPolicy.lru entries) (sumSizes entries) free0
    rw [htk]
    exact List.Pairwise.sublist (List.take_sublist _ _) hsortedE
  · rw [hclean]
    exact evictLoop_stops_late _ _ _ _ _
  · rw [hclean]
    exact evictLoop_post _ _ _ _ _

/-- Witness for C2 at a concrete cache state: three files of sizes 3, 2, 5
with access times 10, 20, 30, `max_bytes = 4`, plenty of free space. -/
theorem corpus_cache_lru_eviction_witness :
    LruEvictionSpec ⟨true, 4, 0, EvictPolicy.lru⟩ 100
      [⟨"a", 5, 30, 30⟩, ⟨"b", 3, 10, 10⟩, ⟨"c", 2, 20, 20⟩] :=
  corpus_cache_lru_eviction ⟨true, 4, 0, EvictPolicy.lru⟩ 100
    [⟨"a", 5, 30, 30⟩, ⟨"b", 3, 10, 10⟩, ⟨"c", 2, 20, 20⟩]
    rfl rfl (by decide)

/-! ## DataBankClient.download_to_path (core/services/data/data_bank_client.py)

The HEAD has already succeeded and reported `remoteSize` (`head.size`); the
single streamed GET's status code is `getStatus`; `etagMatches` says whether
the local file's sha256 equals `head.etag` (what `_verify_file_etag` checks).
The method reads `self._retries` only through `_request`, which the streamed
GET bypasses; the `retries` parameter records that the GET count is
independent of it. -/

/-- Observable actions of one `download_to_path` call. -/
inductive DlEv where
  | headReq
  | getReq (range : Option String)
  | writeAt (off : Nat)
  | verifyHash
deriving DecidableEq, Repr

/-- Exceptions `download_to_path` can raise in the modelled fragment. -/
inductive DlErr where
  | rangeNotSatisfiable
  | httpStatus (code : Nat)
  | hashMismatch
deriving DecidableEq, Repr

/-- Event trace and outcome (`err = none` means the call returned). -/
structure DlOut where
  events : List DlEv
  err : Option DlErr
deriving DecidableEq, Repr

/-- Embedding of `DataBankClient.download_to_path` after the HEAD: `start` is the local
size when resuming over an existing file, the `Range` header is sent exactly
when `start > 0`, and writing begins at offset `start`. -/
def download_to_path (retries : Nat) (resume verify_etag destExists : Bool)
    (destSize remoteSize getStatus : Nat) (etagMatches : Bool) : DlOut :=
  let _ := retries
  let start := if resume && destExists then destSize else 0
  if remoteSize < start then
    ⟨[DlEv.headReq], some DlErr.rangeNotSatisfiable⟩
  else if remoteSize ≤ start then
    if verify_etag then
      ⟨[DlEv.headReq, DlEv.verifyHash],
        if etagMatches then none else some DlErr.hashMismatch⟩
    else ⟨[DlEv.headReq], none⟩
  else
    let rangeHdr : Option String :=
      if 0 < start then some ("bytes=" ++ Nat.repr start ++ "-") else none
    if 400 ≤ getStatus then
      ⟨[DlEv.headReq, DlEv.getReq rangeHdr], some (DlErr.httpStatus getStatus)⟩
    else
      let evs := [DlEv.headReq, DlEv.getReq rangeHdr, DlEv.writeAt start]
      if verify_etag then
        ⟨evs ++ [DlEv.verifyHash], if etagMatches then none else some DlErr.hashMismatch⟩
      else ⟨evs, none⟩

/-- What C3 states about `download_to_path` with resume enabled over an
existing local file of size `s` against a remote of size `r`: a strictly
partial file yields a ranged GET `bytes=s-` writing at offset `s`; `s ≥ r`
yields no GET at all, with the hash check still run when the call returns
(`s = r`) and verification was requested; `s > r` raises
`RangeNotSatisfiable` before any write. -/
def DownloadResumeSpec (retries : Nat) (verify : Bool) (s r g : Nat) (em : Bool) : Prop :=
  (0 < s → s < r →
    DlEv.getReq (some ("bytes=" ++ Nat.repr s ++ "-")) ∈
      (download_to_path retries true verify true s r g em).events ∧
    (g < 400 → DlEv.writeAt s ∈ (download_to_path retries true verify true s r g em).events)) ∧
  (r ≤ s → ∀ rng, DlEv.getReq rng ∉ (download_to_path retries true verify true s r g em).events) ∧
  (s = r → verify = true →
    DlEv.verifyHash ∈ (download_to_path retries true verify true s r g em).events) ∧
  (r < s →
    (download_to_path retries true verify true s r g em).err = some DlErr.rangeNotSatisfiable ∧
    ∀ off, DlEv.writeAt off ∉ (download_to_path retries true verify true s r g em).events)

/-- C3: case analysis of `download_to_path` with resume enabled on the local
size `s` versus the remote size `r`. -/
theorem download_resume_cases (retries : Nat) (verify : Bool) (s r g : Nat) (em : Bool) :
    DownloadResumeSpec retries verify s r g em := by
  refine ⟨?_, ?_, ?_, ?_⟩
  · intro hs hsr
    have h1 : ¬ r < s := by omega
    have h2 : ¬ r ≤ s := by omega
    by_cases hg : 400 ≤ g
    · constructor
      · simp [download_to_path, h1, h2, hs, hg]
      · intro hglt
        omega
    · cases hv : verify <;> simp [download_to_path, h1, h2, hs, hg, hv]
  · intro hle rng
    by_cases h1 : r < s
    · simp [download_to_path, h1]
    · have heq : r ≤ s := hle
      cases hv : verify <;> simp [download_to_path, h1, heq, hv]
  · intro heq hv
    have h1 : ¬ r < s := by omega
    have h2 : r ≤ s := by omega
    simp [download_to_path, h1, h2, hv]
  · intro hgt
    simp [download_to_path, hgt]

/-! ## DataBankClient._request retry loop (core/services/data/data_bank_client.py)

Each call the loop makes either yields a response with some status code or
raises `httpx.TransportError`; the oracle `outcomes` gives the outcome of the
n-th call (`attempt` counter value at call time). -/

/-- Outcome of one underlying `self._client.request(...)` call. -/
inductive HttpOutcome where
  | ok (status : Nat)
  | transportErr
deriving DecidableEq, Repr

/-- Result of `_request`: a returned response or the raised client error. -/
inductive ReqResult where
  | respStatus (s : Nat)
  | transportFailure
deriving DecidableEq, Repr

/-- Call count, the multipliers of the `time.sleep(backoff * attempt)` calls
in order, and the result of one `_request` invocation. -/
structure ReqTrace where
  calls : Nat
  sleepMultipliers : List Nat
  result : ReqResult
deriving DecidableEq, Repr

/-- An outcome the loop retries when idempotent: a 5xx response or a
transport error. -/
def isRetryable : HttpOutcome → Bool
  | .ok s => decide (500 ≤ s) && decide (s < 600)
  | .transportErr => true

/-- What `_request` returns once it stops looping on a given outcome. -/
def resultOfOutcome : HttpOutcome → ReqResult
  | .ok s => .respStatus s
  | .transportErr => .transportFailure

/-- The `while True` loop of `_request`; `budget = retries - attempt` so the
retry guard `attempt < self._retries` is `0 < budget`.  On a retry the
counter is incremented first and the sleep multiplier is the new value. -/
def requestGo (idem : Bool) (outcomes : Nat → HttpOutcome) (attempt : Nat) :
    Nat → ReqTrace
  | 0 =>
    match outcomes attempt with
    | .ok s => ⟨1, [], .respStatus s⟩
    | .transportErr => ⟨1, [], .transportFailure⟩
  | b + 1 =>
    match outcomes attempt with
    | .ok s =>
      if idem = true ∧ 500 ≤ s ∧ s < 600 then
        let t := requestGo idem outcomes (attempt + 1) b
        ⟨t.calls + 1, (attempt + 1) :: t.sleepMultipliers, t.result⟩
      else ⟨1, [], .respStatus s⟩
    | .transportErr =>
      if idem = true then
        let t := requestGo idem outcomes (attempt + 1) b
        ⟨t.calls + 1, (attempt + 1) :: t.sleepMultipliers, t.result⟩
      else ⟨1, [], .transportFailure⟩

/-- Embedding of `DataBankClient._request(method, path, idempotent=...)`. -/
def data_bank_request (idem : Bool) (retries : Nat)
    (outcomes : Nat → HttpOutcome) : ReqTrace :=
  requestGo idem outcomes 0 retries

/-- Method `head` goes through `_request` with the default `idempotent=True`. -/
def head_request (retries : Nat) (outcomes : Nat → HttpOutcome) : ReqTrace :=
  data_bank_request true retries outcomes

/-- Surfaced outcome of `upload`: `_raise_for_error` turns any status ≥ 400
into a raised error. -/
inductive UploadOutcome where
  | success (status : Nat)
  | failureHttp (status : Nat)
  | failureTransport
deriving DecidableEq, Repr

/-- Embedding of `DataBankClient.upload`: one `_request` with `idempotent=False`, then
`_raise_for_error`.  Returns the number of POST attempts made and the
surfaced outcome. -/
def upload_model (retries : Nat) (outcomes : Nat → HttpOutcome) :
    Nat × UploadOutcome :=
  let t := data_bank_request false retries outcomes
  (t.calls,
    match t.result with
    | .transportFailure => .failureTransport
    | .respStatus s => if 400 ≤ s then .failureHttp s else .success s)

/-- Number of GET requests in a `download_to_path` trace. -/
def countGets : List DlEv → Nat
  | [] => 0
  | DlEv.getReq _ :: rest => countGets rest + 1
  | _ :: rest => countGets rest

theorem requestGo_nonidempotent_single (outcomes : Nat → HttpOutcome)
    (attempt b : Nat) : (requestGo false outcomes attempt b).calls = 1 := by
  cases b with
  | zero => cases h : outcomes attempt <;> simp [requestGo, h]
  | succ b => cases h : outcomes attempt <;> simp [requestGo, h]

theorem requestGo_retry_schedule (outcomes : Nat → HttpOutcome) (k : Nat) :
    ∀ attempt b, k ≤ b →
      (∀ i, i < k → isRetryable (outcomes (attempt + i)) = true) →
      isRetryable (outcomes (attempt + k)) = false →
      requestGo true outcomes attempt b =
        ⟨k + 1, List.range' (attempt + 1) k, resultOfOutcome (outcomes (attempt + k))⟩ := by
  induction k with
  | zero =>
    intro attempt b _ _ hstop
    simp only [Nat.add_zero] at hstop
    cases b with
    | zero =>
      cases h : outcomes attempt with
      | ok s => simp [requestGo, h, resultOfOutcome]
      | transportErr => rw [h] at hstop; simp [isRetryable] at hstop
    | succ b =>
      cases h : outcomes attempt with
      | ok s =>
        rw [h] at hstop
        have hs2 : ¬(500 ≤ s ∧ s < 600) := by
          intro hc
          simp [isRetryable, hc.1, hc.2] at hstop
        have hstep : requestGo true outcomes attempt (b + 1) =
            ⟨1, [], ReqResult.respStatus s⟩ := by
          simp only [requestGo, h]
          split_ifs with hc
          · exact absurd ⟨hc.2.1, hc.2.2⟩ hs2
          · rfl
        rw [hstep]
        simp [resultOfOutcome, h]
      | transportErr => rw [h] at hstop; simp [isRetryable] at hstop
  | succ k ih =>
    intro attempt b hkb hbefore hstop
    cases b with
    | zero => omega
    | succ b =>
      have hretry : isRetryable (outcomes attempt) = true := by
        have := hbefore 0 (Nat.succ_pos k)
        simpa using this
      have hrest : requestGo true outcomes (attempt + 1) b =
          ⟨k + 1, List.range' (attempt + 2) k,
            resultOfOutcome (outcomes (attempt + 1 + k))⟩ := by
        refine ih (attempt + 1) b (by omega) ?_ ?_
        · intro i hi
          have := hbefore (i + 1) (by omega)
          have harr : attempt + (i + 1) = attempt + 1 + i := by omega
          rwa [harr] at this
        · have harr : attempt + (k + 1) = attempt + 1 + k := by omega
          rwa [harr] at hstop
      cases h : outcomes attempt with
      | ok s =>
        rw [h] at hretry
        simp only [isRetryable, Bool.and_eq_true, decide_eq_true_eq] at hretry
        have hstep : requestGo true outcomes attempt (b + 1) =
            ⟨(requestGo true outcomes (attempt + 1) b).calls + 1,
              (attempt + 1) :: (requestGo true outcomes (attempt + 1) b).sleepMultipliers,
              (requestGo true outcomes (attempt + 1) b).result⟩ := by
          simp only [requestGo, h]
          split_ifs with hc
          · rfl
          · exact absurd ⟨by trivial, hretry.1, hretry.2⟩ hc
        rw [hstep, hrest]
        have harr : attempt + 1 + k = attempt + (k + 1) := by omega
        rw [harr, List.range'_succ]
      | transportErr =>
        have hstep : requestGo true outcomes attempt (b + 1) =
            ⟨(requestGo true outcomes (attempt + 1) b).calls + 1,
              (attempt + 1) :: (requestGo true outcomes (attempt + 1) b).sleepMultipliers,
              (requestGo true outcomes (attempt + 1) b).result⟩ := by
          simp only [requestGo, h]
          split_ifs with hc
          · rfl
          · exact absurd (by trivial) hc
        rw [hstep, hrest]
        have harr : attempt + 1 + k = attempt + (k + 1) := by omega
        rw [harr, List.range'_succ]

theorem requestGo_exhausts (outcomes : Nat → HttpOutcome) :
    ∀ attempt b, (∀ i, i ≤ b → isRetryable (outcomes (attempt + i)) = true) →
      requestGo true outcomes attempt b =
        ⟨b + 1, List.range' (attempt + 1) b, resultOfOutcome (outcomes (attempt + b))⟩ := by
  intro attempt b
  induction b generalizing attempt with
  | zero =>
    intro _
    cases h : outcomes attempt with
    | ok s => simp [requestGo, h, resultOfOutcome]
    | transportErr => simp [requestGo, h, resultOfOutcome]
  | succ b ih =>
    intro hall
    have hretry : isRetryable (outcomes attempt) = true := by
      have := hall 0 (Nat.zero_le _)
      simpa using this
    have hrest : requestGo true outcomes (attempt + 1) b =
        ⟨b + 1, List.range' (attempt + 2) b,
          resultOfOutcome (outcomes (attempt + 1 + b))⟩ := by
      refine ih (attempt + 1) ?_
      intro i hi
      have := hall (i + 1) (by omega)
      have harr : attempt + (i + 1) = attempt + 1 + i := by omega
      rwa [harr] at this
    cases h : outcomes attempt with
    | ok s =>
      rw [h] at hretry
      simp only [isRetryable, Bool.and_eq_true, decide_eq_true_eq] at hretry
      have hstep : requestGo true outcomes attempt (b + 1) =
          ⟨(requestGo true outcomes (attempt + 1) b).calls + 1,
            (attempt + 1) :: (requestGo true outcomes (attempt + 1) b).sleepMultipliers,
            (requestGo true outcomes (attempt + 1) b).result⟩ := by
        simp only [requestGo, h]
        split_ifs with hc
        · rfl
        · exact absurd ⟨by trivial, hretry.1, hretry.2⟩ hc
      rw [hstep, hrest]
      have harr : attempt + 1 + b = attempt + (b + 1) := by omega
      rw [harr, List.range'_succ]
    | transportErr =>
      have hstep : requestGo true outcomes attempt (b + 1) =
          ⟨(requestGo true outcomes (attempt + 1) b).calls + 1,
            (attempt + 1) :: (requestGo true outcomes (attempt + 1) b).sleepMultipliers,
            (requestGo true outcomes (attempt + 1) b).result⟩ := by
        simp only [requestGo, h]
        split_ifs with hc
        · rfl
        · exact absurd (by trivial) hc
      rw [hstep, hrest]
      have harr : attempt + 1 + b = attempt + (b + 1) := by omega
      rw [harr, List.range'_succ]

/-- C7 (amended): `upload` goes through `_request` with `idempotent=False`
and therefore makes exactly one POST attempt whatever the outcome (5xx and
transport failures surface immediately); `head` goes through `_request` with
`idempotent=True` and is retried on 5xx / transport outcomes with sleep
multipliers 1, 2, … until the first non-retryable outcome (at most `retries`
retries, so `retries + 1` calls when every outcome is retryable); but the
ranged GET of `download_to_path` is issued directly through
`self._client.stream` outside `_request`, so at most one GET is ever made and
a 5xx on it surfaces with no retry. -/
theorem data_bank_retry_semantics (retries : Nat)
    (outcomesU outcomesH outcomesX : Nat → HttpOutcome) (k : Nat)
    (hk : k ≤ retries)
    (hbefore : ∀ i, i < k → isRetryable (outcomesH i) = true)
    (hstop : isRetryable (outcomesH k) = false)
    (hallfail : ∀ i, i ≤ retries → isRetryable (outcomesX i) = true)
    (verify : Bool) (s r g : Nat) (em : Bool) :
    (upload_model retries outcomesU).1 = 1 ∧
    head_request retries outcomesH =
      ⟨k + 1, List.range' 1 k, resultOfOutcome (outcomesH k)⟩ ∧
    head_request retries outcomesX =
      ⟨retries + 1, List.range' 1 retries, resultOfOutcome (outcomesX retries)⟩ ∧
    countGets (download_to_path retries true verify true s r g em).events ≤ 1 ∧
    (0 < s → s < r → 400 ≤ g →
      (download_to_path retries true verify true s r g em).err =
        some (DlErr.httpStatus g) ∧
      countGets (download_to_path retries true verify true s r g em).events = 1) := by
  refine ⟨?_, ?_, ?_, ?_, ?_⟩
  · exact requestGo_nonidempotent_single outcomesU 0 retries
  · have hsched := requestGo_retry_schedule outcomesH k 0 retries hk
      (by intro i hi; rw [Nat.zero_add]; exact hbefore i hi)
      (by rw [Nat.zero_add]; exact hstop)
    simpa [head_request, data_bank_request] using hsched
  · have hexh := requestGo_exhausts outcomesX 0 retries
      (by intro i _; rw [Nat.zero_add]; exact hallfail i (by omega))
    simpa [head_request, data_bank_request] using hexh
  · unfold download_to_path
    split_ifs <;> simp [countGets] <;> split_ifs <;> simp [countGets]
  · intro hs hsr hg
    have h1 : ¬ r < s := by omega
    have h2 : ¬ r ≤ s := by omega
    constructor <;> simp [download_to_path, h1, h2, hs, hg, countGets]

/-- Witness for the retry-semantics theorem: retries = 3, an upload answered
503, a HEAD answered 200 at once, a HEAD answered 500 every time, and a
ranged GET answered 500. -/
theorem data_bank_retry_semantics_witness :
    (upload_model 3 (fun _ => HttpOutcome.ok 503)).1 = 1 ∧
    head_request 3 (fun _ => HttpOutcome.ok 200) =
      ⟨1, List.range' 1 0, ReqResult.respStatus 200⟩ ∧
    head_request 3 (fun _ => HttpOutcome.ok 500) =
      ⟨4, List.range' 1 3, ReqResult.respStatus 500⟩ ∧
    countGets (download_to_path 3 true true true 1 10 500 true).events ≤ 1 ∧
    (0 < 1 → 1 < 10 → 400 ≤ 500 →
      (download_to_path 3 true true true 1 10 500 true).err =
        some (DlErr.httpStatus 500) ∧
      countGets (download_to_path 3 true true true 1 10 500 true).events = 1) :=
  data_bank_retry_semantics 3 (fun _ => HttpOutcome.ok 503)
    (fun _ => HttpOutcome.ok 200) (fun _ => HttpOutcome.ok 500) 0
    (by omega) (fun i hi => absurd hi (by omega)) (by decide)
    (fun _ _ => rfl) true 1 10 500 true

/-- C7 counterexample: the claim says ranged GETs are retried up to the
configured `retries` count on 5xx responses; with `retries = 3` and the
ranged GET answered 500, `download_to_path` raises after exactly one GET
attempt — the streamed GET never re-enters the retry loop. -/
theorem ranged_get_not_retried :
    (download_to_path 3 true true true 1 10 500 true).err =
      some (DlErr.httpStatus 500) ∧
    countGets (download_to_path 3 true true true 1 10 500 true).events = 1 := by
  constructor <;> rfl

/-! ## CorpusFetcher.fetch (core/services/data/corpus_fetcher.py) -/

/-- Network and filesystem effects of one `CorpusFetcher.fetch` call. -/
structure FetchOut where
  headCalls : Nat
  getCalls : Nat
  rangeHdr : Option String
  succeeded : Bool
  installedFinal : Bool
deriving DecidableEq, Repr

/-- Embedding of `CorpusFetcher.fetch`.  Here `cacheHit` is `cache_path.exists()`; `tmpExists`
and `tmpSize` describe the partial `.tmp` sibling; `remoteSize` is the
HEAD-reported Content-Length; `deliveredBytes` is how many bytes the
streamed GET appends at offset `start`.  `etagMatches` states whether the
downloaded content's sha256 equals the remote-reported hash — the source
never reads any hash: after the download it compares only
`temp_path.stat().st_size` with `expected_size`, and on equality executes
`temp_path.replace(cache_path)`; on mismatch it raises `RuntimeError` and
the temp file stays in place.  All HTTP calls are direct `httpx` calls; the
`DataBankClient` Transfer Client is never involved. -/
def corpus_fetch (cacheHit tmpExists : Bool)
    (tmpSize remoteSize deliveredBytes : Nat) (etagMatches : Bool) : FetchOut :=
  let _ := etagMatches
  if cacheHit then ⟨0, 0, none, true, false⟩
  else
    let start := if tmpExists then tmpSize else 0
    let rangeHdr : Option String :=
      if 0 < start then some ("bytes=" ++ Nat.repr start ++ "-") else none
    if start + deliveredBytes = remoteSize then ⟨1, 1, rangeHdr, true, true⟩
    else ⟨1, 1, rangeHdr, false, false⟩

/-- What C4, amended, states about `fetch`: a cache hit returns immediately
with zero network calls; otherwise exactly one HEAD and one GET are made,
the final cache file is installed (atomic `replace`) exactly when the
accumulated temp size equals the remote-reported size, and a size-check
failure leaves no final cache file.  The size check is the only
verification: the outcome is independent of whether the content's hash
matches the remote-reported one. -/
def CorpusFetchSpec (cacheHit tmpExists : Bool)
    (tmpSize remoteSize deliveredBytes : Nat) (em : Bool) : Prop :=
  (cacheHit = true →
    corpus_fetch cacheHit tmpExists tmpSize remoteSize deliveredBytes em =
      ⟨0, 0, none, true, false⟩) ∧
  (cacheHit = false →
    (corpus_fetch cacheHit tmpExists tmpSize remoteSize deliveredBytes em).headCalls = 1 ∧
    (corpus_fetch cacheHit tmpExists tmpSize remoteSize deliveredBytes em).getCalls = 1 ∧
    ((corpus_fetch cacheHit tmpExists tmpSize remoteSize deliveredBytes em).installedFinal
        = true ↔
      (if tmpExists then tmpSize else 0) + deliveredBytes = remoteSize) ∧
    (corpus_fetch cacheHit tmpExists tmpSize remoteSize deliveredBytes em).succeeded =
      (corpus_fetch cacheHit tmpExists tmpSize remoteSize deliveredBytes em).installedFinal) ∧
  corpus_fetch cacheHit tmpExists tmpSize remoteSize deliveredBytes em =
    corpus_fetch cacheHit tmpExists tmpSize remoteSize deliveredBytes true

/-- C4 (amended): cache-hit short-circuit with zero network calls, download
to a temp sibling otherwise, atomic install if and only if the size check
passes, and independence of the outcome from the content hash. -/
theorem corpus_fetch_cache_and_size_check (cacheHit tmpExists : Bool)
    (tmpSize remoteSize deliveredBytes : Nat) (em : Bool) :
    CorpusFetchSpec cacheHit tmpExists tmpSize remoteSize deliveredBytes em := by
  refine ⟨?_, ?_, ?_⟩
  · intro h
    simp [corpus_fetch, h]
  · intro h
    subst h
    by_cases hsz : (if tmpExists then tmpSize else 0) + deliveredBytes = remoteSize <;>
      simp [corpus_fetch, hsz]
  · cases cacheHit <;>
      by_cases hsz : (if tmpExists then tmpSize else 0) + deliveredBytes = remoteSize <;>
        simp [corpus_fetch, hsz]

/-- C4 counterexample: the claim says the download is verified against the
remote-reported size *and hash* via the Transfer Client.  Here the
downloaded bytes do not hash to the remote-reported etag
(`etagMatches = false`), yet `fetch` succeeds and installs the final cache
file, because the source checks only the byte count (and downloads with
direct httpx calls, not through the Transfer Client). -/
theorem corpus_fetch_ignores_hash :
    corpus_fetch false false 0 3 3 false = ⟨1, 1, none, true, true⟩ := rfl

/-! ## TrainingOrchestrator lookups (orchestrators/training_orchestrator.py) -/

/-- `AppError` codes raised in the modelled fragment. -/
inductive AppErrCode where
  | dataNotFound
deriving DecidableEq, Repr

/-- Embedding of `TrainingOrchestrator.get_status`: a missing `runs:status:{run_id}` key
raises `DATA_NOT_FOUND`; otherwise the status and optional heartbeat are
returned. -/
def get_status (store : String → Option String) (run_id : String) :
    Except AppErrCode (String × String × Option String) :=
  match store (statusKey run_id) with
  | none => .error .dataNotFound
  | some st => .ok (run_id, st, store (heartbeatKey run_id))

/-- Response, queue effect and store writes of
`TrainingOrchestrator.enqueue_evaluation`. -/
structure EvalEnqueueOut where
  resp_run_id : String
  resp_split : String
  resp_status : String
  jobEnqueued : Bool
  storeWrites : List String
deriving DecidableEq, Repr

/-- Embedding of `TrainingOrchestrator.enqueue_evaluation`: when `runs:status:{run_id}`
is absent it returns a `failed` response without raising, enqueuing or
writing; otherwise it enqueues the eval job, writes the `runs:eval` cache
record and returns `queued`. -/
def enqueue_evaluation (store : String → Option String)
    (run_id split : String) : EvalEnqueueOut :=
  match store (statusKey run_id) with
  | none => ⟨run_id, split, "failed", false, []⟩
  | some _ => ⟨run_id, split, "queued", true, [evalKey run_id]⟩

/-- Embedding of `TrainingOrchestrator.get_evaluation`: a missing `runs:eval:{run_id}`
key raises `DATA_NOT_FOUND`; otherwise the cached record (kept abstract
here) is returned. -/
def get_evaluation (store : String → Option String) (run_id : String) :
    Except AppErrCode (String × String) :=
  match store (evalKey run_id) with
  | none => .error .dataNotFound
  | some raw => .ok (run_id, raw)

/-- C5: for a run whose status record is absent, `get_status` raises
`DataNotFound` while `enqueue_evaluation` returns a `failed` response
without raising, enqueuing or writing; for a run whose evaluation record is
absent, `get_evaluation` raises `DataNotFound`. -/
theorem missing_run_semantics (store : String → Option String)
    (run_id split : String) :
    (store (statusKey run_id) = none →
      get_status store run_id = Except.error AppErrCode.dataNotFound ∧
      enqueue_evaluation store run_id split = ⟨run_id, split, "failed", false, []⟩) ∧
    (store (evalKey run_id) = none →
      get_evaluation store run_id = Except.error AppErrCode.dataNotFound) := by
  constructor
  · intro h
    constructor <;> simp [get_status, enqueue_evaluation, h]
  · intro h
    simp [get_evaluation, h]

/-- Witness for C5 on the empty store. -/
theorem missing_run_semantics_witness :
    ((fun _ => (none : Option String)) (statusKey "run-9") = none →
      get_status (fun _ => none) "run-9" = Except.error AppErrCode.dataNotFound ∧
      enqueue_evaluation (fun _ => none) "run-9" "validation" =
        ⟨"run-9", "validation", "failed", false, []⟩) ∧
    ((fun _ => (none : Option String)) (evalKey "run-9") = none →
      get_evaluation (fun _ => none) "run-9" = Except.error AppErrCode.dataNotFound) :=
  missing_run_semantics (fun _ => none) "run-9" "validation"

/-! ## TokenizerCleanupService (core/services/tokenizer/tokenizer_cleanup.py)
and RunStore.create_run (infra/storage/run_store.py) -/

/-- What `_collect_tokenizers_in_use` finds for one run directory under the
models root: no `manifest.json`, a manifest that fails
`_ManifestTokenRef.model_validate_json` (unreadable, invalid JSON, or a JSON
object without a string `tokenizer_id` field — the field is required), or a
manifest with a string `tokenizer_id`. -/
inductive ManifestScan where
  | noManifest
  | parseFailure
  | tokenRef (tid : String)
deriving DecidableEq, Repr

/-- Embedding of `_collect_tokenizers_in_use`: any validation failure raises
`TokenizerCleanupError`; otherwise the stripped, non-blank `tokenizer_id`
values form the in-use set. -/
def collectInUse : List ManifestScan → Except Unit (List String)
  | [] => .ok []
  | ManifestScan.noManifest :: rest => collectInUse rest
  | ManifestScan.parseFailure :: _ => .error ()
  | ManifestScan.tokenRef tid :: rest =>
    match collectInUse rest with
    | .error e => .error e
    | .ok l => .ok (if pyStrip tid == "" then l else pyStrip tid :: l)

/-- One directory entry under the tokenizers root as `clean` observes it:
name, whether it is a directory (non-directories are skipped), last-modified
time, and recursive size. -/
structure TokDirEntry where
  name : String
  isDir : Bool
  mtime : Int
  sizeBytes : Nat
deriving DecidableEq, Repr

/-- The `settings.app.tokenizer_cleanup` fields read by `clean`. -/
structure TokCleanupConfig where
  enabled : Bool
  min_unused_days : Nat
deriving DecidableEq, Repr

/-- Embedding of `TokenizerCleanupService.clean`, returning the deleted directory entries
(`deleted_tokenizers` is the length, `bytes_freed` the size sum).  A
directory is deleted exactly when it is not in the in-use set and
`now - mtime ≥ min_unused_days * 24 * 60 * 60` (the code skips when
`age_seconds < min_age_seconds`). -/
def tokenizer_clean (cfg : TokCleanupConfig) (rootExists rootIsDir : Bool)
    (manifests : List ManifestScan) (now : Int) (entries : List TokDirEntry) :
    Except Unit (List TokDirEntry) :=
  if !cfg.enabled then .ok []
  else if !rootExists then .ok []
  else if !rootIsDir then .error ()
  else
    match collectInUse manifests with
    | .error e => .error e
    | .ok inUse =>
      .ok (entries.filter (fun e =>
        e.isDir && !(inUse.contains e.name) &&
          decide ((cfg.min_unused_days : Int) * 86400 ≤ now - e.mtime)))

theorem collectInUse_mem (ms : List ManifestScan) (l : List String)
    (hok : collectInUse ms = Except.ok l) (x : String) :
    x ∈ l ↔ ∃ tid, ManifestScan.tokenRef tid ∈ ms ∧ pyStrip tid = x ∧ ¬(x = "") := by
  induction ms generalizing l with
  | nil =>
    simp only [collectInUse, Except.ok.injEq] at hok
    subst hok
    simp
  | cons m rest ih =>
    cases m with
    | noManifest =>
      rw [collectInUse] at hok
      rw [ih l hok]
      simp
    | parseFailure => simp [collectInUse] at hok
    | tokenRef tid =>
      rw [collectInUse] at hok
      cases hrest : collectInUse rest with
      | error e => rw [hrest] at hok; simp at hok
      | ok l0 =>
        rw [hrest] at hok
        simp only [Except.ok.injEq] at hok
        by_cases htid : pyStrip tid = ""
        · rw [if_pos (by simpa using htid)] at hok
          subst hok
          rw [ih l0 hrest]
          constructor
          · rintro ⟨t, htm, htr, hx⟩
            exact ⟨t, List.mem_cons_of_mem _ htm, htr, hx⟩
          · rintro ⟨t, htm, htr, hx⟩
            rcases List.mem_cons.mp htm with heq | hmem
            · have ht : t = tid := by injection heq
              exact absurd (by rw [← htr, ht, htid]) hx
            · exact ⟨t, hmem, htr, hx⟩
        · rw [if_neg (by simpa using htid)] at hok
          subst hok
          constructor
          · intro hx
            rcases List.mem_cons.mp hx with heq | hmem
            · refine ⟨tid, List.mem_cons_self _ _, heq.symm, ?_⟩
              rw [heq]
              exact htid
            · rcases (ih l0 hrest).mp hmem with ⟨t, htm, htr, hxne⟩
              exact ⟨t, List.mem_cons_of_mem _ htm, htr, hxne⟩
          · rintro ⟨t, htm, htr, hxne⟩
            rcases List.mem_cons.mp htm with heq | hmem
            · have ht : t = tid := by injection heq
              subst ht
              rw [← htr]
              exact List.mem_cons_self _ _
            · exact List.mem_cons_of_mem _ ((ih l0 hrest).mpr ⟨t, hmem, htr, hxne⟩)

/-- C6: with cleanup enabled and the tokenizers root a directory, a
tokenizer directory named by a non-blank `tokenizer_id` of some run manifest
is never deleted regardless of its age, and an unreferenced directory is
deleted if and only if its age `now - mtime` is at least
`min_unused_days * 86400` seconds. -/
theorem tokenizer_cleanup_reference_and_age (cfg : TokCleanupConfig)
    (manifests : List ManifestScan) (now : Int) (entries : List TokDirEntry)
    (inUse : List String) (D : List TokDirEntry)
    (hen : cfg.enabled = true)
    (hcol : collectInUse manifests = Except.ok inUse)
    (hD : tokenizer_clean cfg true true manifests now entries = Except.ok D) :
    (∀ e, e ∈ entries → e.isDir = true → e.name ∈ inUse → e ∉ D) ∧
    (∀ e, e ∈ entries → e.isDir = true → e.name ∉ inUse →
      (e ∈ D ↔ (cfg.min_unused_days : Int) * 86400 ≤ now - e.mtime)) ∧
    (∀ x, x ∈ inUse ↔
      ∃ tid, ManifestScan.tokenRef tid ∈ manifests ∧ pyStrip tid = x ∧ ¬(x = "")) := by
  have hDval : D = entries.filter (fun e =>
      e.isDir && !(inUse.contains e.name) &&
        decide ((cfg.min_unused_days : Int) * 86400 ≤ now - e.mtime)) := by
    unfold tokenizer_clean at hD
    rw [hen, hcol] at hD
    simpa using hD.symm
  refine ⟨?_, ?_, ?_⟩
  · intro e hmem hdir hin hcontra
    rw [hDval] at hcontra
    have hp := (List.mem_filter.mp hcontra).2
    have hc : inUse.contains e.name = true := by
      simpa [List.contains, List.elem_iff] using hin
    rw [hc] at hp
    simp at hp
  · intro e hmem hdir hnin
    have hc : inUse.contains e.name = false := by
      rcases h : inUse.contains e.name with _ | _
      · rfl
      · exact absurd (by simpa [List.contains, List.elem_iff] using h) hnin
    rw [hDval]
    constructor
    · intro hin2
      have hp := (List.mem_filter.mp hin2).2
      rw [hc] at hp
      simp at hp
      exact hp.2
    · intro hage
      refine List.mem_filter.mpr ⟨hmem, ?_⟩
      rw [hc, hdir]
      simp [hage]
  · exact collectInUse_mem manifests inUse hcol

/-- Witness for C6: one manifest referencing `tokA`; `tokA` (in use, old),
`tokB` (unreferenced, old) and `tokC` (unreferenced, fresh) under the
tokenizers root with a 30-day minimum and `now = 10^7`. -/
theorem tokenizer_cleanup_reference_and_age_witness :
    (∀ e, e ∈ [TokDirEntry.mk "tokA" true 0 5, TokDirEntry.mk "tokB" true 0 5,
        TokDirEntry.mk "tokC" true 9999999 5] →
      e.isDir = true → e.name ∈ ["tokA"] →
      e ∉ [TokDirEntry.mk "tokB" true 0 5]) ∧
    (∀ e, e ∈ [TokDirEntry.mk "tokA" true 0 5, TokDirEntry.mk "tokB" true 0 5,
        TokDirEntry.mk "tokC" true 9999999 5] →
      e.isDir = true → e.name ∉ ["tokA"] →
      (e ∈ [TokDirEntry.mk "tokB" true 0 5] ↔
        ((30 : Nat) : Int) * 86400 ≤ (10000000 : Int) - e.mtime)) ∧
    (∀ x, x ∈ ["tokA"] ↔
      ∃ tid, ManifestScan.tokenRef tid ∈ [ManifestScan.tokenRef "tokA"] ∧
        pyStrip tid = x ∧ ¬(x = "")) :=
  tokenizer_cleanup_reference_and_age ⟨true, 30⟩ [ManifestScan.tokenRef "tokA"]
    10000000
    [TokDirEntry.mk "tokA" true 0 5, TokDirEntry.mk "tokB" true 0 5,
      TokDirEntry.mk "tokC" true 9999999 5]
    ["tokA"] [TokDirEntry.mk "tokB" true 0 5]
    rfl rfl rfl

/-- A JSON scalar as it appears in a run manifest. -/
inductive JVal where
  | jstr (s : String)
  | jnum (n : Nat)
deriving DecidableEq, Repr

/-- First value bound to key `k` in a JSON object (association list). -/
def lookupKey (k : String) : List (String × JVal) → Option JVal
  | [] => none
  | (k2, v) :: rest => if k2 == k then some v else lookupKey k rest

/-- Pydantic `_ManifestTokenRef.model_validate_json` on a parsed JSON
object: `tokenizer_id` is a required `str` field and extra keys are ignored;
a missing (or non-string) `tokenizer_id` is a validation error, which
`_collect_tokenizers_in_use` turns into `TokenizerCleanupError`. -/
def manifestTokenRefScan (obj : List (String × JVal)) : ManifestScan :=
  match lookupKey "tokenizer_id" obj with
  | some (JVal.jstr v) => ManifestScan.tokenRef v
  | some (JVal.jnum _) => ManifestScan.parseFailure
  | none => ManifestScan.parseFailure

/-- The manifest body written by `RunStore.create_run`: exactly the eight
keys of the Python dict literal — there is no `tokenizer_id` key. -/
def run_store_manifest (artifacts_root model_family model_size : String)
    (ts : Nat) : List (String × JVal) :=
  [("run_id", JVal.jstr (model_family ++ "-" ++ model_size ++ "-" ++ Nat.repr ts)),
   ("created_at", JVal.jnum ts),
   ("model_family", JVal.jstr model_family),
   ("model_size", JVal.jstr model_size),
   ("artifacts_dir", JVal.jstr (artifacts_root ++ "/models/" ++
     (model_family ++ "-" ++ model_size ++ "-" ++ Nat.repr ts))),
   ("logs_path", JVal.jstr (artifacts_root ++ "/models/" ++
     (model_family ++ "-" ++ model_size ++ "-" ++ Nat.repr ts) ++ "/logs.jsonl")),
   ("status_key", JVal.jstr ("runs:status:" ++
     (model_family ++ "-" ++ model_size ++ "-" ++ Nat.repr ts))),
   ("heartbeat_key", JVal.jstr ("runs:hb:" ++
     (model_family ++ "-" ++ model_size ++ "-" ++ Nat.repr ts)))]

theorem collectInUse_error_of_bad (ms : List ManifestScan)
    (h : ManifestScan.parseFailure ∈ ms) : collectInUse ms = Except.error () := by
  induction ms with
  | nil => cases h
  | cons m rest ih =>
    cases m with
    | noManifest =>
      rw [collectInUse]
      exact ih (by simpa using h)
    | parseFailure => rfl
    | tokenRef tid =>
      have hmem : ManifestScan.parseFailure ∈ rest := by simpa using h
      rw [collectInUse, ih hmem]

/-- C10: a manifest under the models root that parses as JSON but has no
`tokenizer_id` field fails `_ManifestTokenRef` validation and makes the
whole cleanup pass abort with `TokenizerCleanupError`, while a manifest
whose `tokenizer_id` is blank is merely skipped; the manifests written by
`RunStore.create_run` contain no `tokenizer_id` key and hence scan as such a
validation failure. -/
theorem manifest_without_tokenizer_id_aborts (cfg : TokCleanupConfig)
    (manifests ms2 : List ManifestScan) (now : Int) (entries : List TokDirEntry)
    (aroot fam msize : String) (ts : Nat) (w : String)
    (hen : cfg.enabled = true)
    (hbad : ManifestScan.parseFailure ∈ manifests)
    (hw : pyStrip w = "") :
    tokenizer_clean cfg true true manifests now entries = Except.error () ∧
    manifestTokenRefScan (run_store_manifest aroot fam msize ts) =
      ManifestScan.parseFailure ∧
    tokenizer_clean cfg true true (ManifestScan.tokenRef w :: ms2) now entries =
      tokenizer_clean cfg true true ms2 now entries := by
  refine ⟨?_, rfl, ?_⟩
  · unfold tokenizer_clean
    rw [hen, collectInUse_error_of_bad manifests hbad]
    rfl
  · unfold tokenizer_clean
    rw [hen]
    have hskip : collectInUse (ManifestScan.tokenRef w :: ms2) = collectInUse ms2 := by
      rw [collectInUse]
      cases hrest : collectInUse ms2 with
      | error e => rfl
      | ok l => simp [hw]
    rw [hskip]

/-- Witness for C10: a models root holding one valid reference, one
field-less manifest, and a blank-reference manifest scanned separately. -/
theorem manifest_without_tokenizer_id_aborts_witness :
    tokenizer_clean ⟨true, 30⟩ true true
      [ManifestScan.tokenRef "tokA", ManifestScan.parseFailure] 10000000
      [TokDirEntry.mk "tokB" true 0 5] = Except.error () ∧
    manifestTokenRefScan (run_store_manifest "/data/artifacts" "gpt2" "small" 1700000000) =
      ManifestScan.parseFailure ∧
    tokenizer_clean ⟨true, 30⟩ true true
      (ManifestScan.tokenRef "  " :: [ManifestScan.tokenRef "tokA"]) 10000000
      [TokDirEntry.mk "tokB" true 0 5] =
    tokenizer_clean ⟨true, 30⟩ true true [ManifestScan.tokenRef "tokA"] 10000000
      [TokDirEntry.mk "tokB" true 0 5] :=
  manifest_without_tokenizer_id_aborts ⟨true, 30⟩
    [ManifestScan.tokenRef "tokA", ManifestScan.parseFailure]
    [ManifestScan.tokenRef "tokA"] 10000000 [TokDirEntry.mk "tokB" true 0 5]
    "/data/artifacts" "gpt2" "small" 1700000000 "  "
    rfl (by simp) rfl

/-! ## TrainingOrchestrator.enqueue_training (orchestrators/training_orchestrator.py) -/

/-- Schema `TrainRequest` (api/schemas/runs.py); `learning_rate : float` is omitted
(floating point, irrelevant to the claims). -/
structure TrainReqModel where
  model_family : String
  model_size : String
  max_seq_len : Nat
  num_epochs : Nat
  batch_size : Nat
  corpus_path : Option String
  corpus_file_id : Option String
  tokenizer_id : String
deriving DecidableEq, Repr

/-- Result of `enqueue_training`: the `CONFIG_INVALID` error for an unknown
model family, or the run and job ids. -/
inductive TrainEnqueueResult where
  | configInvalid
  | enqueued (run_id job_id : String)
deriving DecidableEq, Repr

/-- Side effects and result of `TrainingOrchestrator.enqueue_training`.
`payloadCorpusPath` is the `corpus_path` field of the `TrainJobPayload`
handed to the queue; `fetcherCalls` counts `CorpusFetcher` invocations. -/
structure TrainEnqueueOut where
  result : TrainEnqueueResult
  runCreated : Bool
  jobEnqueued : Bool
  statusWritten : Bool
  fetcherCalls : Nat
  payloadCorpusPath : Option String
deriving DecidableEq, Repr

/-- Embedding of `TrainingOrchestrator.enqueue_training`: after the model-family registry
check (`familyKnown`), it creates the run, builds the payload with
`req.corpus_path` passed through verbatim, enqueues, and writes the queued
status.  `req.corpus_file_id` is never read and no Corpus Fetcher call is
made. -/
def enqueue_training (familyKnown : Bool) (req : TrainReqModel)
    (run_id job_id : String) : TrainEnqueueOut :=
  if !familyKnown then ⟨.configInvalid, false, false, false, 0, none⟩
  else ⟨.enqueued run_id job_id, true, true, true, 0, req.corpus_path⟩

/-- C8: the claim says a request supplying neither `corpus_path` nor
`corpus_file_id` (or both) fails validation with `ConfigInvalid` before any
side effect, and a remote `corpus_file_id` is resolved through the Corpus
Fetcher before enqueueing.  Evaluating the code: with a registered family
and both fields absent, the run is created and the job enqueued with
`corpus_path = None` and zero fetcher calls; with both fields present, the
job is enqueued with the local path and `corpus_file_id` is silently
ignored. -/
theorem enqueue_training_skips_corpus_validation :
    enqueue_training true ⟨"gpt2", "small", 512, 1, 4, none, none, "tok-1"⟩
      "run-1" "job-1" =
      ⟨.enqueued "run-1" "job-1", true, true, true, 0, none⟩ ∧
    enqueue_training true
      ⟨"gpt2", "small", 512, 1, 4, some "/data/c.txt", some "fid-1", "tok-1"⟩
      "run-2" "job-2" =
      ⟨.enqueued "run-2" "job-2", true, true, true, 0, some "/data/c.txt"⟩ :=
  ⟨rfl, rfl⟩

/-! ## TokenizerOrchestrator.enqueue_training (orchestrators/tokenizer_orchestrator.py) -/

/-- Left-pad with zeros to `w` characters (Python `f"{n:010d}"`). -/
def padLeftZeros (w : Nat) (s : String) : String :=
  String.mk (List.replicate (w - s.length) '0') ++ s

/-- Python `tokenizer_id = f"tok-{token_hash:010d}"` with
`token_hash = abs(hash((method, vocab_size, resolved_corpus, seed))) % 10**10`,
as a function of the absolute value of what the builtin `hash` returned. -/
def tok_candidate_id (hashAbs : Nat) : String :=
  "tok-" ++ padLeftZeros 10 (Nat.repr (hashAbs % 10 ^ 10))

/-- The id derivation of `TokenizerOrchestrator.enqueue_training`,
parameterised by the process's builtin `hash` on the 4-tuple.  CPython
salts the hash of any `str` (and hence of tuples containing one) with
`PYTHONHASHSEED`, freshly randomised for each process. -/
def derive_tokenizer_id (pyHash : String × Nat × String × Nat → Nat)
    (method : String) (vocab_size : Nat) (resolved_corpus : String)
    (seed : Nat) : String :=
  tok_candidate_id (pyHash (method, vocab_size, resolved_corpus, seed))

/-- C9: the claim says the derived `tokenizer_id` is a deterministic
function of `(method, vocab_size, corpus path, seed)` across separate
process executions.  The id is exactly determined by the builtin hash value
modulo 10^10: two server processes whose salted hashes assign the same
request tuple the values 0 and 1 derive different ids for identical
requests. -/
theorem tokenizer_id_depends_on_hash_salt :
    derive_tokenizer_id (fun _ => 0) "bpe" 1000 "/cache/f.txt" 42 ≠
      derive_tokenizer_id (fun _ => 1) "bpe" 1000 "/cache/f.txt" 42 := by
  decide

end ModelTrainer
